import Mathlib

/-!
Shallow embedding of the H264 encoder pipeline from
`src/src/ac/android/h264encoder.cpp` (aethercast).

Modelling conventions:
* Runtime/hybris calls (`media_message_create`, `media_source_create`,
  `media_codec_source_create`, `media_buffer_create`,
  `media_codec_source_start/stop/read`) are external collaborators; their
  success/failure and any values they produce are passed in as explicit
  oracle parameters.
* The reporter (`report_->Started()` etc.) and producer-buffer release
  (`buf->Release()`) are modelled as an append-only event list in the state.
* C `int32_t` arithmetic is modelled over `Int` (the concrete values in the
  code stay far from 2^31), with C's truncating division as `Int.tdiv` and
  the arithmetic right shift `>> 8` as floor division `Int.fdiv`.
* `char` on the target platform (Android/ARM) is unsigned, so a byte read
  through `(char)rgb[s]` is its unsigned value 0..255 and a store into a
  `char` array reduces the stored int modulo 256.
-/

namespace Aethercast

/-- Error codes from frameworks/av MediaErrors.h, as mirrored at the top of
h264encoder.cpp: `kAndroidMediaErrorBase = -1000` and offsets from it. -/
def kAndroidMediaErrorBase : Int := -1000

/-- kAndroidMediaErrorNotConnected = base - 1. -/
def kAndroidMediaErrorNotConnected : Int := kAndroidMediaErrorBase - 1

/-- kAndroidMediaErrorBufferTooSmall = base - 9. -/
def kAndroidMediaErrorBufferTooSmall : Int := kAndroidMediaErrorBase - 9

/-- kAndroidMediaErrorEndOfStream = base - 11. -/
def kAndroidMediaErrorEndOfStream : Int := kAndroidMediaErrorBase - 11

/-- kOMXColorFormatAndroidOpaque = 0x7F000789. -/
def kOMXColorFormatAndroidOpaque : Int := 0x7F000789

/-- kOMXVideoControlRateConstant = 2. -/
def kOMXVideoControlRateConstant : Int := 2

/-- kMetadataBufferTypeANWBuffer = 2 (metadata buffer type tag). -/
def kMetadataBufferTypeANWBuffer : Int := 2

/-- kMetadataBufferTypeInvalid = -1. -/
def kMetadataBufferTypeInvalid : Int := -1

/-- video::BaseEncoder::Config — the encoder configuration fields used by
H264Encoder (width, height, framerate, bitrate, i_frame_interval,
intra_refresh_mode, profile_idc, level_idc, constraint_set). -/
structure Config where
  width : Int := 0
  height : Int := 0
  framerate : Int := 0
  bitrate : Int := 0
  i_frame_interval : Int := 0
  intra_refresh_mode : Int := 0
  profile_idc : Int := 0
  level_idc : Int := 0
  constraint_set : Int := 0
  deriving Repr, DecidableEq

/-- The cyclic intra-refresh macroblock count computed in
H264Encoder::Configure, line 333:
`(((config.width + 15) / 16) * ((config.height + 15) / 16) * 10) / 100`
with C `int32_t` (truncating) division. -/
def intraRefreshMbs (w h : Int) : Int :=
  (((w + 15).tdiv 16 * ((h + 15).tdiv 16)) * 10).tdiv 100

/-- The AMessage the encoder is configured with: the key/value pairs set by
H264Encoder::Configure on the `format` message. -/
structure MediaMessage where
  mime : String
  storeMetaDataInBuffers : Int
  storeMetaDataInBuffersOutput : Bool
  inputMetadataBufferType : Int
  width : Int
  height : Int
  stride : Int
  sliceHeight : Int
  colorFormat : Int
  bitrate : Int
  bitrateMode : Int
  framerate : Int
  intraRefreshMode : Int
  intraRefreshCIRMbs : Int
  iFrameInterval : Option Int
  profileIdc : Option Int
  levelIdc : Option Int
  constraintSet : Option Int
  prependSpsPpsToIdrFrames : Int
  deriving Repr, DecidableEq

/-- The MetaData attached to the media source by Configure (`source_format`). -/
structure SourceFormat where
  mime : String
  colorFormat : Int
  width : Int
  height : Int
  stride : Int
  sliceHeight : Int
  framerate : Int
  deriving Repr, DecidableEq

/-- A producer-side frame buffer (ac::video::Buffer): identity, optional
zero-copy native handle, length in bytes, byte payload, capture timestamp. -/
structure VideoBuffer where
  id : Nat
  nativeHandle : Option Nat
  length : Nat
  data : Nat → Nat
  timestamp : Int

/-- Payload of a runtime-side MediaBuffer: either raw converted pixel bytes
(readout mode) or a VideoNativeMetadata record (zero-copy mode). -/
inductive MediaPayload where
  | raw (bytes : Nat → Nat)
  | nativeMeta (eType : Int) (pBuffer : Nat) (nFenceFd : Int)

/-- A runtime-side packed buffer (MediaBufferWrapper): identity, allocation
size, payload, the timestamp stamped into its metadata, and whether the
buffer-returned callback is registered on it. -/
structure MediaBuffer where
  id : Nat
  size : Int
  payload : MediaPayload
  timestampMeta : Int
  hasReturnCallback : Bool

/-- A Pending Buffer Entry (struct BufferItem): pairs the producer-side
buffer with the runtime-side packed buffer created from it. -/
structure BufferItem where
  buffer : VideoBuffer
  media_buffer : MediaBuffer

/-- Observable reporter/delegate/ownership events emitted by the pipeline. -/
inductive Event where
  | started
  | stopped
  | receivedInput (ts : Int)
  | beganFrame (ts : Int)
  | finishedFrame (ts : Int)
  | bufferWithCodecConfig (ts : Int)
  | bufferAvailable (ts : Int)
  | mediaBufferReleased (id : Nat)
  | producerBufferReleased (id : Nat)
  deriving Repr, DecidableEq

/-- The mutable state of one H264Encoder instance: the runtime handle
`encoder_`, the retained `format_` and `source_format_`, stored `config_`,
the `running_` flag, the construction-time `readout_` mode flag, the input
Buffer Queue, the pending-buffers list, and the emitted event trace. -/
structure EncoderState where
  encoder : Option Nat
  format : Option MediaMessage
  sourceFormat : Option SourceFormat
  config : Config
  running : Bool
  readout : Bool
  inputQueue : List VideoBuffer
  pendingBuffers : List BufferItem
  events : List Event

/-- The constructor state of H264Encoder(report, readout): no handles, not
running, empty queue, empty pending set. -/
def initialState (readout : Bool) : EncoderState :=
  { encoder := none
    format := none
    sourceFormat := none
    config := {}
    running := false
    readout := readout
    inputQueue := []
    pendingBuffers := []
    events := [] }

/-- H264Encoder::Configure. Oracles: `colorProp` is the integer parsed from
the `ubuntu.widi.colorformat` property (0 when unset); `formatAlloc`,
`sourceAlloc`, `sourceFormatAlloc`, `encoderAlloc` are the success of
`media_message_create`, `media_source_create`, `media_meta_data_create` and
`media_codec_source_create` (the last carrying the new handle id). Returns
false if a handle already exists; on any allocation failure releases the
partially created runtime objects and leaves the state unchanged; on
success stores config, format, source format and the encoder handle. -/
def Configure (s : EncoderState) (config : Config) (colorProp : Int)
    (formatAlloc : Bool) (sourceAlloc : Bool) (sourceFormatAlloc : Bool)
    (encoderAlloc : Option Nat) : Bool × EncoderState :=
  if s.encoder.isSome then (false, s)
  else if !formatAlloc then (false, s)
  else
    let colorFormat :=
      if 0 < colorProp then colorProp else kOMXColorFormatAndroidOpaque
    let format : MediaMessage :=
      { mime := "video/avc"
        storeMetaDataInBuffers :=
          if s.readout then kMetadataBufferTypeInvalid
          else kMetadataBufferTypeANWBuffer
        storeMetaDataInBuffersOutput := false
        inputMetadataBufferType :=
          if s.readout then kMetadataBufferTypeInvalid
          else kMetadataBufferTypeANWBuffer
        width := config.width
        height := config.height
        stride := config.width
        sliceHeight := config.height
        colorFormat := colorFormat
        bitrate := config.bitrate
        bitrateMode := kOMXVideoControlRateConstant
        framerate := config.framerate
        intraRefreshMode := 0
        intraRefreshCIRMbs := intraRefreshMbs config.width config.height
        iFrameInterval :=
          if 0 < config.i_frame_interval then some config.i_frame_interval
          else none
        profileIdc :=
          if 0 < config.profile_idc then some config.profile_idc else none
        levelIdc :=
          if 0 < config.level_idc then some config.level_idc else none
        constraintSet :=
          if 0 < config.constraint_set then some config.constraint_set
          else none
        prependSpsPpsToIdrFrames := 1 }
    if !sourceAlloc then (false, s)
    else if !sourceFormatAlloc then (false, s)
    else
      let sourceFormat : SourceFormat :=
        { mime := "video/raw"
          colorFormat := kOMXColorFormatAndroidOpaque
          width := config.width
          height := config.height
          stride := config.width
          sliceHeight := config.height
          framerate := config.framerate }
      match encoderAlloc with
      | none => (false, s)
      | some enc =>
          (true,
            { s with
              encoder := some enc
              config := config
              format := some format
              sourceFormat := some sourceFormat })

/-- H264Encoder::Start. The runtime's `media_codec_source_start` may invoke
the source-read callback synchronously, so it is modelled as a predicate
`startFn` on the encoder state as it stands at the moment of the call.
Fails if unconfigured or already running; otherwise sets `running_` true
before the runtime call, rolls it back on runtime failure, and reports a
started event on success. -/
def Start (s : EncoderState) (startFn : EncoderState → Bool) :
    Bool × EncoderState :=
  if s.encoder.isNone || s.running then (false, s)
  else
    let s1 := { s with running := true }
    if startFn s1 then
      (true, { s1 with events := s1.events ++ [Event.started] })
    else
      (false, { s1 with running := false })

/-- H264Encoder::Stop. Oracle `stopOk` is the result of
`media_codec_source_stop`. Fails if unconfigured or not running, fails
leaving state unchanged if the runtime stop fails, otherwise clears
`running_` and reports a stopped event. -/
def Stop (s : EncoderState) (stopOk : Bool) : Bool × EncoderState :=
  if s.encoder.isNone || !s.running then (false, s)
  else if !stopOk then (false, s)
  else
    (true, { s with running := false, events := s.events ++ [Event.stopped] })

/-- H264Encoder::QueueBuffer. A no-op while not running; otherwise pushes
the buffer into the input Buffer Queue and reports a received-input event
with the buffer's timestamp. -/
def QueueBuffer (s : EncoderState) (buffer : VideoBuffer) : EncoderState :=
  if !s.running then s
  else
    { s with
      inputQueue := s.inputQueue ++ [buffer]
      events := s.events ++ [Event.receivedInput buffer.timestamp] }

/-- One encoded output unit read back from the runtime by Execute, after
MediaSourceBuffer::Create copied it: its timestamp metadata and whether it
is flagged as codec-config data. -/
structure EncodedUnit where
  timestamp : Int
  isCodecConfig : Bool
  deriving Repr, DecidableEq

/-- H264Encoder::Execute. Oracle `readResult` is the outcome of the blocking
`media_codec_source_read` (`none` = failure); `delegatePresent` is whether
the weak delegate reference is still alive. Fails while not running; on a
successful read reports finished-frame and notifies the delegate (codec
config first when flagged). -/
def Execute (s : EncoderState) (readResult : Option EncodedUnit)
    (delegatePresent : Bool) : Bool × EncoderState :=
  if !s.running then (false, s)
  else
    match readResult with
    | none => (false, s)
    | some unit =>
        let evs :=
          [Event.finishedFrame unit.timestamp]
          ++ (if unit.isCodecConfig && delegatePresent then
                [Event.bufferWithCodecConfig unit.timestamp] else [])
          ++ (if delegatePresent then
                [Event.bufferAvailable unit.timestamp] else [])
        (true, { s with events := s.events ++ evs })

/-- The arithmetic right shift `>> 8` applied by rgb2yuv420p to a (possibly
negative) C int: floor division by 256. -/
def asr8 (x : Int) : Int := Int.fdiv x 256

/-- Conversion of a C int to the unsigned `char` of the target platform:
reduction modulo 256. -/
def toByte (x : Int) : Nat := (x % 256).toNat

/-- The luma byte stored by rgb2yuv420p (line 485):
`yuv420p[i] = (char)((66*sR + 129*sG + 25*sB + 128) >> 8) + 16` where the
result of the int addition is reduced to a char by the array store. -/
def yStore (r g b : Nat) : Nat :=
  (toByte (asr8 (66 * (r : Int) + 129 * (g : Int) + 25 * (b : Int) + 128))
    + 16) % 256

/-- The chroma-U byte stored by rgb2yuv420p (line 489):
`yuv420p[ui++] = (char)((-38*sR - 74*sG + 112*sB + 128) >> 8) + 128`. -/
def uStore (r g b : Nat) : Nat :=
  (toByte (asr8 (-38 * (r : Int) - 74 * (g : Int) + 112 * (b : Int) + 128))
    + 128) % 256

/-- The chroma-V byte stored by rgb2yuv420p (line 490):
`yuv420p[vi++] = (char)((112*sR - 94*sG - 18*sB + 128) >> 8) + 128`. -/
def vStore (r g b : Nat) : Nat :=
  (toByte (asr8 (112 * (r : Int) - 94 * (g : Int) - 18 * (b : Int) + 128))
    + 128) % 256

/-- The loop-carried state of rgb2yuv420p: the output memory and the
indices `i` (luma write), `ui` (U write), `vi` (V write) and `s` (source
read). -/
structure YuvState where
  mem : Nat → Nat
  i : Nat
  ui : Nat
  vi : Nat
  s : Nat

/-- A single store into the output char array. -/
def writeMem (m : Nat → Nat) (a : Nat) (v : Nat) : Nat → Nat :=
  fun x => if x = a then v else m x

/-- The body of rgb2yuv420p's inner loop for row `j`, column `k`: write the
luma byte at `i`, and at even row/column also the U byte at `ui` and the V
byte at `vi`; then advance `i` by one and `s` by `colors = 4`. -/
def yuvPixelStep (rgb : Nat → Nat) (j k : Nat) (st : YuvState) : YuvState :=
  let r := rgb st.s
  let g := rgb (st.s + 1)
  let b := rgb (st.s + 2)
  let m1 := writeMem st.mem st.i (yStore r g b)
  if j % 2 = 0 ∧ k % 2 = 0 then
    { mem := writeMem (writeMem m1 st.ui (uStore r g b)) st.vi (vStore r g b)
      i := st.i + 1
      ui := st.ui + 1
      vi := st.vi + 1
      s := st.s + 4 }
  else
    { mem := m1, i := st.i + 1, ui := st.ui, vi := st.vi, s := st.s + 4 }

/-- One iteration of rgb2yuv420p's outer loop: the inner loop over columns
`k = 0 .. width-1` of row `j`. -/
def yuvRow (rgb : Nat → Nat) (w j : Nat) (st : YuvState) : YuvState :=
  (List.range w).foldl (fun st k => yuvPixelStep rgb j k st) st

/-- rgb2yuv420p (lines 469-495): starting from the freshly allocated output
memory `init` with `i = 0`, `ui = numpixels`, `vi = numpixels +
numpixels/4`, `s = 0`, runs the double loop over all rows and columns and
returns the resulting output memory. -/
def rgb2yuv420p (rgb init : Nat → Nat) (w h : Nat) : Nat → Nat :=
  ((List.range h).foldl (fun st j => yuvRow rgb w j st)
    { mem := init, i := 0, ui := w * h, vi := w * h + w * h / 4, s := 0 }).mem

/-- The luma byte the conversion writes for pixel `p` (row-major index):
`yStore` of the three RGB(A) source bytes at `rgb[4p .. 4p+2]`. -/
def pixY (rgb : Nat → Nat) (p : Nat) : Nat :=
  yStore (rgb (4 * p)) (rgb (4 * p + 1)) (rgb (4 * p + 2))

/-- The pixel index the `t`-th chroma sample is taken from: chroma samples
are appended in iteration order, one per even-row/even-column pixel, so
sample `t` belongs to row `2 * (t / (w/2))`, column `2 * (t % (w/2))`. -/
def chromaPix (w t : Nat) : Nat :=
  2 * (t / (w / 2)) * w + 2 * (t % (w / 2))

/-- The chroma-U byte of the `t`-th chroma sample. -/
def pixU (rgb : Nat → Nat) (w t : Nat) : Nat :=
  uStore (rgb (4 * chromaPix w t)) (rgb (4 * chromaPix w t + 1))
    (rgb (4 * chromaPix w t + 2))

/-- The chroma-V byte of the `t`-th chroma sample. -/
def pixV (rgb : Nat → Nat) (w t : Nat) : Nat :=
  vStore (rgb (4 * chromaPix w t)) (rgb (4 * chromaPix w t + 1))
    (rgb (4 * chromaPix w t + 2))

/-- The number of chroma samples written before the loop reaches row `j`,
column `k`: one per even-row/even-column pixel already visited. -/
def cCount (w j k : Nat) : Nat :=
  w / 2 * ((j + 1) / 2) + (if j % 2 = 0 then (k + 1) / 2 else 0)

/-- The expected output memory after writing `p` luma bytes and `c` chroma
sample pairs: luma plane at offset 0, U plane at offset `N`, V plane at
offset `N + Q` (`N` = pixel count, `Q` = `N / 4`), untouched addresses keep
their initial content. -/
def specMem (rgb init : Nat → Nat) (w N Q p c : Nat) : Nat → Nat :=
  fun a =>
    if a < p then pixY rgb a
    else if N ≤ a ∧ a < N + c then pixU rgb w (a - N)
    else if N + Q ≤ a ∧ a < N + Q + c then pixV rgb w (a - (N + Q))
    else init a

/-- The expected loop state of rgb2yuv420p on entry to row `j`, column `k`. -/
def yuvInv (rgb init : Nat → Nat) (w h j k : Nat) : YuvState :=
  { mem := specMem rgb init w (w * h) (w * h / 4) (j * w + k) (cCount w j k)
    i := j * w + k
    ui := w * h + cCount w j k
    vi := w * h + w * h / 4 + cCount w j k
    s := 4 * (j * w + k) }

/-- The size of the C struct VideoNativeMetadata (enum tag, buffer pointer,
fence fd) on the 64-bit target: the fixed allocation size of a zero-copy
metadata buffer. -/
def sizeofVideoNativeMetadata : Int := 24

/-- The size passed to `media_buffer_create` in readout mode:
`config_.width * config_.height * 3 / 2` in C int arithmetic. -/
def yuvBufferSize (w h : Int) : Int := (w * h * 3).tdiv 2

/-- H264Encoder::PackBuffer. Oracle `alloc` is the outcome of
`media_buffer_create` (`none` = allocation failure, `some id` = the new
runtime buffer's identity); `initMem` is the uninitialised content of the
new allocation. In readout mode (no native handle, nonzero length) fills a
`width*height*3/2`-byte buffer via rgb2yuv420p; in zero-copy mode (native
handle present) fills a VideoNativeMetadata record; otherwise, or on
allocation failure, drops the buffer returning `none` with the state
unchanged. On success registers the return callback, stamps the timestamp
metadata and appends one Pending Buffer Entry. -/
def PackBuffer (s : EncoderState) (input : VideoBuffer) (timestamp : Int)
    (alloc : Option Nat) (initMem : Nat → Nat) :
    Option MediaBuffer × EncoderState :=
  if s.readout && input.nativeHandle.isNone && decide (0 < input.length) then
    match alloc with
    | none => (none, s)
    | some newId =>
        let buf : MediaBuffer :=
          { id := newId
            size := yuvBufferSize s.config.width s.config.height
            payload := MediaPayload.raw
              (rgb2yuv420p input.data initMem s.config.width.toNat
                s.config.height.toNat)
            timestampMeta := timestamp
            hasReturnCallback := true }
        (some buf,
          { s with pendingBuffers :=
              s.pendingBuffers ++ [{ buffer := input, media_buffer := buf }] })
  else if !s.readout then
    match input.nativeHandle with
    | none => (none, s)
    | some handle =>
        match alloc with
        | none => (none, s)
        | some newId =>
            let buf : MediaBuffer :=
              { id := newId
                size := sizeofVideoNativeMetadata
                payload :=
                  MediaPayload.nativeMeta kMetadataBufferTypeANWBuffer
                    handle (-1)
                timestampMeta := timestamp
                hasReturnCallback := true }
            (some buf,
              { s with pendingBuffers :=
                  s.pendingBuffers
                    ++ [{ buffer := input, media_buffer := buf }] })
  else (none, s)

/-- H264Encoder::OnSourceRead. `thiz` is `none` when the instance handle in
`user_data` is gone; `slotPresent` is whether the output `buffer` slot
pointer is non-null; `alloc`/`initMem` feed the PackBuffer call. Returns
the status code, the updated instance state and the packed buffer placed
into the output slot on success. -/
def OnSourceRead (thiz : Option EncoderState) (slotPresent : Bool)
    (alloc : Option Nat) (initMem : Nat → Nat) :
    Int × Option EncoderState × Option MediaBuffer :=
  match thiz with
  | none => (kAndroidMediaErrorNotConnected, none, none)
  | some s =>
      if !s.running then (kAndroidMediaErrorNotConnected, some s, none)
      else if !slotPresent then (kAndroidMediaErrorBufferTooSmall, some s, none)
      else
        match s.inputQueue with
        | [] => (kAndroidMediaErrorEndOfStream, some s, none)
        | input :: rest =>
            let s1 := { s with inputQueue := rest }
            match PackBuffer s1 input input.timestamp alloc initMem with
            | (none, s2) => (kAndroidMediaErrorEndOfStream, some s2, none)
            | (some buf, s2) =>
                (0,
                  some { s2 with events :=
                    s2.events ++ [Event.beganFrame input.timestamp] },
                  some buf)

/-- H264Encoder::OnBufferReturned. `thiz` is `none` when the instance handle
is gone; `bufId` identifies the runtime buffer being returned. Scans the
pending list for the first entry whose media buffer matches by identity; if
none matches, warns and leaves the state unchanged; otherwise releases the
runtime buffer, erases that entry and releases the producer buffer back to
its owner. -/
def OnBufferReturned (thiz : Option EncoderState) (bufId : Nat) :
    Option EncoderState :=
  match thiz with
  | none => none
  | some s =>
      match s.pendingBuffers.find? (fun it => it.media_buffer.id == bufId) with
      | none => some s
      | some item =>
          some
            { s with
              pendingBuffers :=
                s.pendingBuffers.eraseP (fun it => it.media_buffer.id == bufId)
              events :=
                s.events
                  ++ [Event.mediaBufferReleased bufId,
                      Event.producerBufferReleased item.buffer.id] }

/-! Sample concrete values used by witness theorems. -/

/-- A sample producer-side frame buffer without a native handle. -/
def sampleBuffer : VideoBuffer :=
  { id := 7, nativeHandle := none, length := 16, data := fun _ => 0
    timestamp := 42 }

/-- A sample producer-side frame buffer carrying a native handle. -/
def sampleHandleBuffer : VideoBuffer :=
  { id := 8, nativeHandle := some 99, length := 0, data := fun _ => 0
    timestamp := 43 }

/-- The 1280x720 at 5 MBit/s, 15 s I-frame interval configuration from the
spec's scenario. -/
def cfgHD : Config :=
  { width := 1280, height := 720, framerate := 30, bitrate := 5000000
    i_frame_interval := 15 }

/-- A configured, running encoder state in readout mode, used by witnesses. -/
def runningState : EncoderState :=
  { encoder := some 1
    format := none
    sourceFormat := none
    config := cfgHD
    running := true
    readout := true
    inputQueue := []
    pendingBuffers := []
    events := [] }

/-- A small configured running readout state (2x2 frame) for witnesses that
must evaluate the packing pipeline concretely. -/
def tinyState : EncoderState :=
  { runningState with
      config := { width := 2, height := 2, framerate := 30, bitrate := 100
                  i_frame_interval := 15 } }

/-- C3: Start, called when configured and not running, invokes the runtime
start callback on a state whose running flag is already true; when the
runtime start fails the flag is rolled back to false and Start returns
failure with no event emitted; when it succeeds Start returns true and the
reporter receives a started notification. -/
theorem start_sets_running_before_runtime_call (s : EncoderState)
    (startFn : EncoderState → Bool)
    (hcfg : s.encoder.isSome = true) (hrun : s.running = false) :
    ({ s with running := true } : EncoderState).running = true ∧
    (startFn { s with running := true } = false →
      Start s startFn = (false, s)) ∧
    (startFn { s with running := true } = true →
      Start s startFn =
        (true, { s with running := true
                        events := s.events ++ [Event.started] })) := by
  obtain ⟨enc, fmt, sf, cfg, run, ro, q, pend, evs⟩ := s
  subst hrun
  refine ⟨rfl, ?_, ?_⟩ <;> intro hf <;>
    simp [Start, Option.isNone_iff_eq_none, hf] <;>
    cases enc <;> simp_all

/-- Witness for C3 at a concrete configured, non-running state. -/
theorem start_sets_running_before_runtime_call_witness :
    Start { runningState with running := false } (fun t => t.running) =
      (true, { runningState with
                 running := true, events := [Event.started] }) :=
  (start_sets_running_before_runtime_call
    { runningState with running := false } (fun t => t.running)
    rfl rfl).2.2 rfl

/-- C8: while the running flag is false every gated operation is a safe
no-op or failure: Start without a prior successful Configure (no runtime
handle) fails without setting the flag, Stop and Execute while not running
fail leaving the state unchanged, and QueueBuffer while not running leaves
the state (in particular the Buffer Queue and the event trace) unchanged. -/
theorem not_running_gate_is_safe :
    (∀ s f, s.encoder = none → Start s f = (false, s)) ∧
    (∀ s ok, s.running = false → Stop s ok = (false, s)) ∧
    (∀ s rr d, s.running = false → Execute s rr d = (false, s)) ∧
    (∀ s b, s.running = false → QueueBuffer s b = s) := by
  refine ⟨?_, ?_, ?_, ?_⟩
  · intro s f h
    simp [Start, h, Option.isNone_iff_eq_none]
  · intro s ok h
    simp [Stop, h]
  · intro s rr d h
    simp [Execute, h]
  · intro s b h
    simp [QueueBuffer, h]

/-- Witness for C8 at concrete non-running states. -/
theorem not_running_gate_is_safe_witness :
    Start (initialState true) (fun _ => true) = (false, initialState true) ∧
    Stop { runningState with running := false } true =
      (false, { runningState with running := false }) ∧
    Execute { runningState with running := false } none true =
      (false, { runningState with running := false }) ∧
    QueueBuffer { runningState with running := false } sampleBuffer =
      { runningState with running := false } :=
  ⟨not_running_gate_is_safe.1 _ _ rfl,
   not_running_gate_is_safe.2.1 _ _ rfl,
   not_running_gate_is_safe.2.2.1 _ _ _ rfl,
   not_running_gate_is_safe.2.2.2 _ _ rfl⟩

/-- C9: Stop while configured and running succeeds when the runtime stop
succeeds, clearing the running flag and emitting exactly one stopped event;
an immediately following second Stop fails whatever the runtime would
answer and changes nothing, so exactly one stopped notification is
observed across both calls. -/
theorem stop_twice_reports_once (s : EncoderState)
    (hcfg : s.encoder.isSome = true) (hrun : s.running = true) :
    Stop s true =
      (true, { s with running := false
                      events := s.events ++ [Event.stopped] }) ∧
    (∀ ok, Stop { s with running := false
                         events := s.events ++ [Event.stopped] } ok =
      (false, { s with running := false
                       events := s.events ++ [Event.stopped] })) ∧
    (({ s with running := false
               events := s.events ++ [Event.stopped] } : EncoderState).events.count
        Event.stopped = s.events.count Event.stopped + 1) := by
  obtain ⟨enc, fmt, sf, cfg, run, ro, q, pend, evs⟩ := s
  subst hrun
  refine ⟨?_, ?_, ?_⟩
  · cases enc <;> simp_all [Stop]
  · intro ok
    simp [Stop]
  · simp

/-- Witness for C9 at a concrete configured, running state. -/
theorem stop_twice_reports_once_witness :
    Stop runningState true =
      (true, { runningState with running := false
                                 events := [Event.stopped] }) :=
  (stop_twice_reports_once runningState rfl rfl).1

/-- A failing Configure call leaves the state unchanged: every early-return
path of H264Encoder::Configure releases only the temporaries it created. -/
theorem configure_false_state_unchanged (s : EncoderState) (cfg : Config)
    (cp : Int) (fa sa sfa : Bool) (ea : Option Nat) (s1 : EncoderState)
    (h : Configure s cfg cp fa sa sfa ea = (false, s1)) : s1 = s := by
  simp only [Configure] at h
  split at h
  · exact (Prod.mk.injEq .. ▸ h).2.symm
  · split at h
    · exact (Prod.mk.injEq .. ▸ h).2.symm
    · split at h
      · exact (Prod.mk.injEq .. ▸ h).2.symm
      · split at h
        · exact (Prod.mk.injEq .. ▸ h).2.symm
        · split at h
          · exact (Prod.mk.injEq .. ▸ h).2.symm
          · simp at h

/-- A successful Configure stores the runtime handle delivered by
`media_codec_source_create` together with the configuration, format and
source format. -/
theorem configure_true_state (s : EncoderState) (cfg : Config)
    (cp : Int) (fa sa sfa : Bool) (ea : Option Nat) (s1 : EncoderState)
    (h : Configure s cfg cp fa sa sfa ea = (true, s1)) :
    s1.encoder.isSome = true ∧ s1.config = cfg ∧
    ∃ msg, s1.format = some msg ∧
      msg.intraRefreshCIRMbs = intraRefreshMbs cfg.width cfg.height := by
  simp only [Configure] at h
  split at h
  · simp at h
  · split at h
    · simp at h
    · split at h
      · simp at h
      · split at h
        · simp at h
        · split at h
          · simp at h
          · obtain ⟨-, h2⟩ := Prod.mk.injEq .. ▸ h
            subst h2
            exact ⟨rfl, rfl, _, rfl, rfl⟩

/-- C4: for every valid configuration, a successful Configure followed
immediately by a second Configure call fails and leaves the stored state —
configuration, format, source format and runtime handle — exactly as the
first call left it; and any failing Configure call (duplicate call or any
allocation failure) retains no partial state at all. -/
theorem configure_second_call_fails_and_no_partial_state
    (s : EncoderState) (cfg : Config)
    (hw : 0 < cfg.width) (hh : 0 < cfg.height) (hb : 0 < cfg.bitrate) :
    (∀ cp fa sa sfa ea s1, Configure s cfg cp fa sa sfa ea = (true, s1) →
      ∀ cfg2 cp2 fa2 sa2 sfa2 ea2,
        Configure s1 cfg2 cp2 fa2 sa2 sfa2 ea2 = (false, s1)) ∧
    (∀ cp fa sa sfa ea s1, Configure s cfg cp fa sa sfa ea = (false, s1) →
      s1 = s) := by
  constructor
  · intro cp fa sa sfa ea s1 h1 cfg2 cp2 fa2 sa2 sfa2 ea2
    have hs := (configure_true_state s cfg cp fa sa sfa ea s1 h1).1
    simp only [Configure, hs, if_true]
  · intro cp fa sa sfa ea s1 h
    exact configure_false_state_unchanged s cfg cp fa sa sfa ea s1 h

/-- Witness for C4: a concrete double-Configure with the spec's 1280x720
configuration. -/
theorem configure_second_call_fails_witness :
    Configure (Configure (initialState true) cfgHD 0 true true true
        (some 1)).2 cfgHD 0 true true true (some 2)
      = (false,
          (Configure (initialState true) cfgHD 0 true true true (some 1)).2) :=
  (configure_second_call_fails_and_no_partial_state (initialState true) cfgHD
      (by decide) (by decide) (by decide)).1
    0 true true true (some 1) _ rfl cfgHD 0 true true true (some 2)

/-- C5: packing enforces the mode/handle precondition. In readout mode a
buffer carrying a native handle, or one of zero length, is dropped: no
packed buffer is produced and the state (in particular the pending set) is
unchanged. In zero-copy mode a buffer lacking a native handle is likewise
dropped, and in any mode an allocation failure of the runtime buffer drops
the individual buffer the same way. Packing is a total function — it never
raises a fatal error. -/
theorem pack_mode_mismatch_drops_buffer (s : EncoderState)
    (input : VideoBuffer) (ts : Int) (alloc : Option Nat)
    (init : Nat → Nat) :
    (s.readout = true → (input.nativeHandle ≠ none ∨ input.length = 0) →
      PackBuffer s input ts alloc init = (none, s)) ∧
    (s.readout = false → input.nativeHandle = none →
      PackBuffer s input ts alloc init = (none, s)) ∧
    (alloc = none → PackBuffer s input ts alloc init = (none, s)) := by
  refine ⟨?_, ?_, ?_⟩
  · intro hro hmis
    rcases hmis with hnh | hlen
    · cases hh : input.nativeHandle with
      | none => exact absurd hh hnh
      | some v => simp [PackBuffer, hro, hh]
    · simp [PackBuffer, hro, hlen]
  · intro hro hnh
    simp [PackBuffer, hro, hnh]
  · intro hal
    subst hal
    simp only [PackBuffer]
    split
    · rfl
    · split
      · cases input.nativeHandle <;> rfl
      · rfl

/-- Witness for C5: readout-mode pack of a handle-carrying buffer, and
zero-copy-mode pack of a handle-less buffer, both dropped. -/
theorem pack_mode_mismatch_drops_buffer_witness :
    PackBuffer runningState sampleHandleBuffer 0 (some 3) (fun _ => 0) =
      (none, runningState) ∧
    PackBuffer { runningState with readout := false } sampleBuffer 0
        (some 3) (fun _ => 0) =
      (none, { runningState with readout := false }) :=
  ⟨(pack_mode_mismatch_drops_buffer runningState sampleHandleBuffer 0
      (some 3) (fun _ => 0)).1 rfl (Or.inl (by simp [sampleHandleBuffer])),
   (pack_mode_mismatch_drops_buffer { runningState with readout := false }
      sampleBuffer 0 (some 3) (fun _ => 0)).2.1 rfl rfl⟩

/-- PackBuffer either fails leaving the state unchanged, or succeeds
appending exactly one Pending Buffer Entry pairing the input buffer with
the new packed buffer. -/
theorem packBuffer_cases (s : EncoderState) (input : VideoBuffer)
    (ts : Int) (alloc : Option Nat) (init : Nat → Nat) :
    PackBuffer s input ts alloc init = (none, s) ∨
    ∃ buf, PackBuffer s input ts alloc init =
      (some buf,
        { s with pendingBuffers :=
            s.pendingBuffers ++ [{ buffer := input, media_buffer := buf }] }) := by
  unfold PackBuffer
  split
  · cases alloc with
    | none => exact Or.inl rfl
    | some newId => exact Or.inr ⟨_, rfl⟩
  · split
    · cases input.nativeHandle with
      | none => exact Or.inl rfl
      | some v =>
          cases alloc with
          | none => exact Or.inl rfl
          | some newId => exact Or.inr ⟨_, rfl⟩
    · exact Or.inl rfl

/-- C2: the pull-read callback returns not-connected when the instance
handle is gone or the pipeline is not running, buffer-too-small when the
output slot pointer is null, end-of-stream when the Buffer Queue is empty
(packing nothing), and on a successful pack of the popped buffer returns
success (code 0) with the packed buffer while notifying the reporter of a
began-frame event carrying the original buffer's timestamp. -/
theorem on_source_read_cases (s : EncoderState) (slot : Bool)
    (alloc : Option Nat) (init : Nat → Nat) :
    (OnSourceRead none slot alloc init =
      (kAndroidMediaErrorNotConnected, none, none)) ∧
    (s.running = false → OnSourceRead (some s) slot alloc init =
      (kAndroidMediaErrorNotConnected, some s, none)) ∧
    (s.running = true → OnSourceRead (some s) false alloc init =
      (kAndroidMediaErrorBufferTooSmall, some s, none)) ∧
    (s.running = true → s.inputQueue = [] →
      OnSourceRead (some s) true alloc init =
        (kAndroidMediaErrorEndOfStream, some s, none)) ∧
    (∀ input rest buf s2, s.running = true → s.inputQueue = input :: rest →
      PackBuffer { s with inputQueue := rest } input input.timestamp alloc
          init = (some buf, s2) →
      OnSourceRead (some s) true alloc init =
        (0, some { s2 with
                     events := s2.events
                       ++ [Event.beganFrame input.timestamp] },
         some buf)) := by
  obtain ⟨enc, fmt, sf, cfg, run, ro, q, pend, evs⟩ := s
  refine ⟨rfl, ?_, ?_, ?_, ?_⟩
  · intro h
    subst h
    simp [OnSourceRead]
  · intro h
    subst h
    simp [OnSourceRead]
  · intro h hq
    subst h
    simp only at hq
    subst hq
    simp [OnSourceRead]
  · intro input rest buf s2 h hq hp
    subst h
    simp only at hq
    subst hq
    simp only [OnSourceRead, Bool.not_true, Bool.false_eq_true, if_false,
      if_true]
    rw [hp]

/-- Witness for C2: empty-queue pull-read on a concrete running state
returns end-of-stream. -/
theorem on_source_read_cases_witness :
    OnSourceRead (some runningState) true (some 3) (fun _ => 0) =
      (kAndroidMediaErrorEndOfStream, some runningState, none) :=
  (on_source_read_cases runningState true (some 3) (fun _ => 0)).2.2.2.1
    rfl rfl

/-- C10: when the pull-read callback pops a buffer from a non-empty Buffer
Queue but packing it fails, the callback returns end-of-stream — the very
same status code as for an empty queue — and the popped buffer is simply
dropped: the final state has the remaining queue, while the pending set and
the event trace (hence any release notification) are those of the original
state. -/
theorem pack_failure_in_pull_read_drops_buffer (s : EncoderState)
    (input : VideoBuffer) (rest : List VideoBuffer)
    (alloc : Option Nat) (init : Nat → Nat)
    (hr : s.running = true) (hq : s.inputQueue = input :: rest)
    (hp : (PackBuffer { s with inputQueue := rest } input input.timestamp
            alloc init).1 = none) :
    OnSourceRead (some s) true alloc init =
      (kAndroidMediaErrorEndOfStream, some { s with inputQueue := rest },
        none) := by
  obtain ⟨enc, fmt, sf, cfg, run, ro, q, pend, evs⟩ := s
  subst hr
  simp only at hq
  subst hq
  rcases packBuffer_cases (⟨enc, fmt, sf, cfg, true, ro, rest, pend, evs⟩ :
      EncoderState) input input.timestamp alloc init with hc | ⟨buf, hc⟩
  · simp only [OnSourceRead, Bool.not_true, Bool.false_eq_true, if_false,
      if_true]
    rw [hc]
  · rw [hc] at hp
    simp at hp

/-- Witness for C10: a running state whose queue holds one mode-mismatched
buffer; pull-read pops and drops it, answering end-of-stream. -/
theorem pack_failure_in_pull_read_drops_buffer_witness :
    OnSourceRead
        (some { runningState with inputQueue := [sampleHandleBuffer] })
        true (some 3) (fun _ => 0) =
      (kAndroidMediaErrorEndOfStream, some runningState, none) :=
  pack_failure_in_pull_read_drops_buffer
    { runningState with inputQueue := [sampleHandleBuffer] }
    sampleHandleBuffer [] (some 3) (fun _ => 0) rfl rfl rfl

/-- A successful PackBuffer with a concrete allocation id produces a packed
buffer carrying exactly that identity, appended as one pending entry. -/
theorem packBuffer_some_cases (s : EncoderState) (input : VideoBuffer)
    (ts : Int) (newId : Nat) (init : Nat → Nat) :
    PackBuffer s input ts (some newId) init = (none, s) ∨
    ∃ buf, buf.id = newId ∧
      PackBuffer s input ts (some newId) init =
        (some buf,
          { s with pendingBuffers :=
              s.pendingBuffers
                ++ [{ buffer := input, media_buffer := buf }] }) := by
  unfold PackBuffer
  split
  · exact Or.inr ⟨_, rfl, rfl⟩
  · split
    · cases input.nativeHandle with
      | none => exact Or.inl rfl
      | some v => exact Or.inr ⟨_, rfl, rfl⟩
    · exact Or.inl rfl

/-- Erasing by a predicate disjoint from `p` does not change the `p`-count
of a list. -/
theorem countP_eraseP_disjoint {α : Type} (p q : α → Bool)
    (hpq : ∀ a, q a = true → p a = false) :
    ∀ l : List α, (l.eraseP q).countP p = l.countP p := by
  intro l
  induction l with
  | nil => rfl
  | cons x xs ih =>
      by_cases hx : q x = true
      · simp [List.eraseP_cons, hx, List.countP_cons, hpq x hx]
      · simp only [List.eraseP_cons, Bool.not_eq_true] at hx ⊢
        simp [hx, List.countP_cons, ih]

/-- C1: a successful pack with a fresh runtime-buffer identity appends
exactly one Pending Buffer Entry pairing the producer buffer with the
packed buffer, so the pending set holds exactly one entry for that
identity; a buffer-returned callback for any other identity keeps that
count, while the callback for this identity removes the entry exactly once
— restoring the original pending set — and releases the producer buffer
back to its owner; a buffer-returned callback for an identity with no
matching entry leaves the state unchanged. -/
theorem pending_entry_lifecycle (s : EncoderState) (input : VideoBuffer)
    (ts : Int) (newId : Nat) (init : Nat → Nat) (buf : MediaBuffer)
    (s1 : EncoderState)
    (hfresh : ∀ it ∈ s.pendingBuffers, it.media_buffer.id ≠ newId)
    (hpack : PackBuffer s input ts (some newId) init = (some buf, s1)) :
    buf.id = newId ∧
    s1.pendingBuffers
      = s.pendingBuffers ++ [{ buffer := input, media_buffer := buf }] ∧
    s1.pendingBuffers.countP (fun it => it.media_buffer.id == newId) = 1 ∧
    (∀ otherId s2, otherId ≠ newId →
      OnBufferReturned (some s1) otherId = some s2 →
      s2.pendingBuffers.countP (fun it => it.media_buffer.id == newId) = 1) ∧
    OnBufferReturned (some s1) newId =
      some { s1 with
               pendingBuffers := s.pendingBuffers
               events := s1.events
                 ++ [Event.mediaBufferReleased newId,
                     Event.producerBufferReleased input.id] } ∧
    (∀ t : EncoderState,
      (∀ it ∈ t.pendingBuffers, it.media_buffer.id ≠ newId) →
      OnBufferReturned (some t) newId = some t) := by
  rcases packBuffer_some_cases s input ts newId init with hc | ⟨buf', hid, hc⟩
  · rw [hc] at hpack
    simp at hpack
  rw [hc] at hpack
  have hbuf : buf' = buf :=
    Option.some_injective _ (congrArg Prod.fst hpack)
  subst hbuf
  have hs1 : s1 =
      { s with pendingBuffers :=
          s.pendingBuffers ++ [{ buffer := input, media_buffer := buf' }] } :=
    (congrArg Prod.snd hpack).symm
  subst hs1
  have hid' : buf'.id = newId := hid
  have hnot : ∀ it ∈ s.pendingBuffers,
      (fun it => it.media_buffer.id == newId) it = false := by
    intro it hit
    simpa using hfresh it hit
  have hfind : s.pendingBuffers.find?
      (fun it => it.media_buffer.id == newId) = none :=
    List.find?_eq_none.mpr (by intro x hx; simp [hfresh x hx])
  have hcount0 : s.pendingBuffers.countP
      (fun it => it.media_buffer.id == newId) = 0 :=
    List.countP_eq_zero.mpr (by intro x hx; simp [hfresh x hx])
  have hentry : (fun it => it.media_buffer.id == newId)
      ({ buffer := input, media_buffer := buf' } : BufferItem) = true := by
    simp [hid']
  have hcount1 : (s.pendingBuffers
      ++ [({ buffer := input, media_buffer := buf' } : BufferItem)]).countP
        (fun it => it.media_buffer.id == newId) = 1 := by
    rw [List.countP_append, hcount0]
    simp [hid']
  refine ⟨hid', rfl, hcount1, ?_, ?_, ?_⟩
  · intro otherId s2 hne hret
    simp only [OnBufferReturned] at hret
    split at hret
    · obtain rfl := Option.some_injective _ hret
      exact hcount1
    · obtain rfl := Option.some_injective _ hret
      simp only
      rw [countP_eraseP_disjoint]
      · exact hcount1
      · intro a ha
        simp only [beq_iff_eq] at ha ⊢
        simp [ha, hne]
  · simp only [OnBufferReturned]
    rw [List.find?_append, hfind]
    simp only [Option.none_or]
    rw [show (List.find? (fun it => it.media_buffer.id == newId)
        [({ buffer := input, media_buffer := buf' } : BufferItem)]) =
          some ({ buffer := input, media_buffer := buf' } : BufferItem) by
      simp [List.find?_cons, hid']]
    rw [List.eraseP_append_right _
      (by intro b hb; simp [hfresh b hb])]
    simp [List.eraseP_cons, hid']
  · intro t ht
    simp only [OnBufferReturned]
    rw [List.find?_eq_none.mpr (by intro x hx; simp [ht x hx])]

/-- Witness for C1: packing one concrete buffer into the tiny state yields
a pending set with exactly one entry for the new identity. -/
theorem pending_entry_lifecycle_witness :
    ((PackBuffer tinyState sampleBuffer 42 (some 3) (fun _ => 0)).2).pendingBuffers.countP
        (fun it => it.media_buffer.id == 3) = 1 :=
  (pending_entry_lifecycle tinyState sampleBuffer 42 3 (fun _ => 0) _ _
      (by intro it hit; simp [tinyState, runningState] at hit) rfl).2.2.1

/-- The C idiom `(w + 15) / 16` computes the ceiling of `w / 16`: for every
integer `w`, the Euclidean quotient `(w + 15) / 16` equals `⌈w / 16⌉`. -/
theorem intCeil_div_16 (w : Int) : ⌈(w : ℚ) / 16⌉ = (w + 15) / 16 := by
  have hdm : 16 * ((w + 15) / 16) + (w + 15) % 16 = w + 15 :=
    Int.ediv_add_emod (w + 15) 16
  have hm0 : 0 ≤ (w + 15) % 16 := Int.emod_nonneg _ (by norm_num)
  have hm1 : (w + 15) % 16 < 16 := Int.emod_lt_of_pos _ (by norm_num)
  have hdmq : (16:ℚ) * (((w + 15) / 16 : Int) : ℚ) +
      (((w + 15) % 16 : Int) : ℚ) = (w : ℚ) + 15 := by exact_mod_cast hdm
  have hm0q : (0:ℚ) ≤ (((w + 15) % 16 : Int) : ℚ) := by exact_mod_cast hm0
  have hm1q : (((w + 15) % 16 : Int) : ℚ) < 16 := by exact_mod_cast hm1
  rw [Int.ceil_eq_iff]
  constructor
  · rw [lt_div_iff₀ (by norm_num : (0:ℚ) < 16)]
    push_cast
    linarith [hdmq, hm0q]
  · rw [div_le_iff₀ (by norm_num : (0:ℚ) < 16)]
    have h2 : w ≤ 16 * ((w + 15) / 16) := by omega
    have h2q : (w : ℚ) ≤ 16 * (((w + 15) / 16 : Int) : ℚ) := by
      exact_mod_cast h2
    push_cast
    linarith [h2q]

/-- C7: the cyclic intra-refresh macroblock count computed by Configure is
`⌈width/16⌉ * ⌈height/16⌉ * 10 / 100` for every positive width and height;
in particular it is 360 at 1280x720, and every successful Configure stores
exactly this count in the format message. -/
theorem configure_intra_refresh_mbs :
    (∀ w h : Int, 0 < w → 0 < h →
      intraRefreshMbs w h = ⌈(w : ℚ) / 16⌉ * ⌈(h : ℚ) / 16⌉ * 10 / 100) ∧
    intraRefreshMbs 1280 720 = 360 ∧
    (∀ s cfg cp fa sa sfa ea s1,
      Configure s cfg cp fa sa sfa ea = (true, s1) →
      ∃ msg, s1.format = some msg ∧
        msg.intraRefreshCIRMbs = intraRefreshMbs cfg.width cfg.height) := by
  refine ⟨?_, by decide, ?_⟩
  · intro w h hw hh
    have hw15 : (0:Int) ≤ w + 15 := by omega
    have hh15 : (0:Int) ≤ h + 15 := by omega
    have ha : (w + 15).tdiv 16 = (w + 15) / 16 :=
      Int.tdiv_eq_ediv hw15 (by norm_num)
    have hb : (h + 15).tdiv 16 = (h + 15) / 16 :=
      Int.tdiv_eq_ediv hh15 (by norm_num)
    have ha0 : 0 ≤ (w + 15) / 16 := Int.ediv_nonneg hw15 (by norm_num)
    have hb0 : 0 ≤ (h + 15) / 16 := Int.ediv_nonneg hh15 (by norm_num)
    unfold intraRefreshMbs
    rw [ha, hb, intCeil_div_16, intCeil_div_16,
      Int.tdiv_eq_ediv (by positivity) (by norm_num)]
  · intro s cfg cp fa sa sfa ea s1 h
    exact (configure_true_state s cfg cp fa sa sfa ea s1 h).2.2

/-- Witness for C7: the formula and the stored count at the concrete
1280x720 configuration. -/
theorem configure_intra_refresh_mbs_witness :
    intraRefreshMbs 1280 720 =
      ⌈(1280 : ℚ) / 16⌉ * ⌈(720 : ℚ) / 16⌉ * 10 / 100 ∧
    ∃ msg,
      ((Configure (initialState true) cfgHD 0 true true true (some 1)).2).format
        = some msg ∧
      msg.intraRefreshCIRMbs = intraRefreshMbs cfgHD.width cfgHD.height :=
  ⟨configure_intra_refresh_mbs.1 1280 720 (by norm_num) (by norm_num),
   configure_intra_refresh_mbs.2.2 (initialState true) cfgHD 0 true true true
     (some 1) _ rfl⟩

/-- cCount at an even row and even column. -/
theorem cCount_even (w j k : Nat) (hj : j % 2 = 0) (hk : k % 2 = 0) :
    cCount w j k = w / 2 * (j / 2) + k / 2 := by
  unfold cCount
  rw [if_pos hj, show (j + 1) / 2 = j / 2 by omega,
    show (k + 1) / 2 = k / 2 by omega]

/-- cCount advances by one at an even/even pixel. -/
theorem cCount_succ_even (w j k : Nat) (hj : j % 2 = 0) (hk : k % 2 = 0) :
    cCount w j (k + 1) = cCount w j k + 1 := by
  unfold cCount
  rw [if_pos hj, if_pos hj]
  generalize w / 2 * ((j + 1) / 2) = X
  omega

/-- cCount is unchanged at a pixel that is not even/even. -/
theorem cCount_succ_odd (w j k : Nat) (hjk : ¬(j % 2 = 0 ∧ k % 2 = 0)) :
    cCount w j (k + 1) = cCount w j k := by
  by_cases hj : j % 2 = 0
  · have hk : ¬ k % 2 = 0 := fun h => hjk ⟨hj, h⟩
    unfold cCount
    rw [if_pos hj, if_pos hj]
    generalize w / 2 * ((j + 1) / 2) = X
    omega
  · unfold cCount
    rw [if_neg hj, if_neg hj]

/-- At the end of a row the chroma counter agrees with the start of the
next row. -/
theorem cCount_row_end (w j : Nat) (hw : w % 2 = 0) :
    cCount w j w = cCount w (j + 1) 0 := by
  obtain ⟨a, rfl⟩ : ∃ a, w = 2 * a := ⟨w / 2, by omega⟩
  unfold cCount
  by_cases hj : j % 2 = 0
  · obtain ⟨t, rfl⟩ : ∃ t, j = 2 * t := ⟨j / 2, by omega⟩
    rw [if_pos hj, if_neg (by omega)]
    rw [show (2 * t + 1) / 2 = t by omega, show (2 * a + 1) / 2 = a by omega,
      show (2 * t + 1 + 1) / 2 = t + 1 by omega,
      show (2 * a) / 2 = a by omega]
    ring
  · obtain ⟨t, rfl⟩ : ∃ t, j = 2 * t + 1 := ⟨j / 2, by omega⟩
    rw [if_neg hj, if_pos (by omega)]
    rw [show (2 * t + 1 + 1) / 2 = t + 1 by omega,
      show (2 * t + 1 + 1 + 1) / 2 = t + 1 by omega,
      show (0 + 1) / 2 = 0 by omega]

/-- The chroma counter at the top-left corner is zero. -/
theorem cCount_zero (w : Nat) : cCount w 0 0 = 0 := by
  unfold cCount
  norm_num

/-- After all rows of an even-by-even frame the chroma counter equals the
size of one chroma plane, `w * h / 4`. -/
theorem cCount_top (w h : Nat) (hw : w % 2 = 0) (hh : h % 2 = 0) :
    cCount w h 0 = w * h / 4 := by
  obtain ⟨a, rfl⟩ : ∃ a, w = 2 * a := ⟨w / 2, by omega⟩
  obtain ⟨b, rfl⟩ : ∃ b, h = 2 * b := ⟨h / 2, by omega⟩
  unfold cCount
  rw [if_pos hh]
  rw [show (2 * b + 1) / 2 = b by omega, show (2 * a) / 2 = a by omega,
    show (0 + 1) / 2 = 0 by omega,
    show 2 * a * (2 * b) = 4 * (a * b) by ring,
    Nat.mul_div_cancel_left _ (by norm_num : 0 < 4)]
  ring

/-- The chroma counter at an even/even pixel inside the frame is below the
chroma plane size. -/
theorem cCount_lt (w h j k : Nat) (hw : w % 2 = 0) (hh : h % 2 = 0)
    (hj : j < h) (hk : k < w) (hj2 : j % 2 = 0) (hk2 : k % 2 = 0) :
    cCount w j k < w * h / 4 := by
  rw [cCount_even w j k hj2 hk2]
  obtain ⟨a, rfl⟩ : ∃ a, w = 2 * a := ⟨w / 2, by omega⟩
  obtain ⟨b, rfl⟩ : ∃ b, h = 2 * b := ⟨h / 2, by omega⟩
  obtain ⟨j2, rfl⟩ : ∃ t, j = 2 * t := ⟨j / 2, by omega⟩
  obtain ⟨k2, rfl⟩ : ∃ t, k = 2 * t := ⟨k / 2, by omega⟩
  rw [show (2 * a) / 2 = a by omega, show (2 * j2) / 2 = j2 by omega,
    show (2 * k2) / 2 = k2 by omega,
    show 2 * a * (2 * b) = 4 * (a * b) by ring,
    Nat.mul_div_cancel_left _ (by norm_num : 0 < 4)]
  have hj2b : j2 + 1 ≤ b := by omega
  have hk2a : k2 < a := by omega
  calc a * j2 + k2 < a * j2 + a := by omega
    _ = a * (j2 + 1) := by ring
    _ ≤ a * b := Nat.mul_le_mul_left a hj2b

/-- chromaPix inverts the chroma counter: the `cCount w j k`-th chroma
sample is sampled at pixel `(j, k)`. -/
theorem chromaPix_cCount (w j k : Nat) (hw : w % 2 = 0) (hk : k < w)
    (hj2 : j % 2 = 0) (hk2 : k % 2 = 0) :
    chromaPix w (cCount w j k) = j * w + k := by
  rw [cCount_even w j k hj2 hk2]
  obtain ⟨a, rfl⟩ : ∃ a, w = 2 * a := ⟨w / 2, by omega⟩
  obtain ⟨j2, rfl⟩ : ∃ t, j = 2 * t := ⟨j / 2, by omega⟩
  obtain ⟨k2, rfl⟩ : ∃ t, k = 2 * t := ⟨k / 2, by omega⟩
  have ha : 0 < a := by omega
  have hk2a : k2 < a := by omega
  unfold chromaPix
  rw [show (2 * a) / 2 = a by omega, show (2 * j2) / 2 = j2 by omega,
    show (2 * k2) / 2 = k2 by omega,
    Nat.mul_add_div ha, Nat.div_eq_of_lt hk2a,
    Nat.mul_add_mod, Nat.mod_eq_of_lt hk2a]
  ring

/-- The expected memory at pixel zero with no chroma samples is the initial
memory. -/
theorem specMem_zero (rgb init : Nat → Nat) (w N Q : Nat) :
    specMem rgb init w N Q 0 0 = init := by
  funext a
  simp only [specMem]
  rw [if_neg (by omega), if_neg (by omega), if_neg (by omega)]

/-- Writing one luma byte and one chroma sample pair advances the expected
memory by one pixel and one chroma sample. -/
theorem specMem_succ (rgb init : Nat → Nat) (w N Q p c : Nat)
    (hpN : p < N) (hcQ : c < Q) :
    specMem rgb init w N Q (p + 1) (c + 1) =
      writeMem
        (writeMem (writeMem (specMem rgb init w N Q p c) p (pixY rgb p))
          (N + c) (pixU rgb w c))
        (N + Q + c) (pixV rgb w c) := by
  funext a
  simp only [specMem, writeMem]
  split_ifs <;> first | rfl | omega | (congr 1 <;> omega)

/-- Writing only a luma byte advances the expected memory by one pixel. -/
theorem specMem_succ_y (rgb init : Nat → Nat) (w N Q p c : Nat)
    (hpN : p < N) :
    specMem rgb init w N Q (p + 1) c =
      writeMem (specMem rgb init w N Q p c) p (pixY rgb p) := by
  funext a
  simp only [specMem, writeMem]
  split_ifs <;> first | rfl | omega | (congr 1 <;> omega)

/-- The inner loop body of rgb2yuv420p preserves the loop invariant,
stepping from column `k` to `k + 1`. -/
theorem yuvPixelStep_inv (rgb init : Nat → Nat) (w h j k : Nat)
    (hw : w % 2 = 0) (hh : h % 2 = 0) (hj : j < h) (hk : k < w) :
    yuvPixelStep rgb j k (yuvInv rgb init w h j k) =
      yuvInv rgb init w h j (k + 1) := by
  have hpN : j * w + k < w * h :=
    calc j * w + k < j * w + w := Nat.add_lt_add_left hk _
      _ = (j + 1) * w := by ring
      _ ≤ h * w := Nat.mul_le_mul_right w hj
      _ = w * h := Nat.mul_comm h w
  by_cases hjk : j % 2 = 0 ∧ k % 2 = 0
  · obtain ⟨hj2, hk2⟩ := hjk
    have hcQ : cCount w j k < w * h / 4 :=
      cCount_lt w h j k hw hh hj hk hj2 hk2
    have hch : chromaPix w (cCount w j k) = j * w + k :=
      chromaPix_cCount w j k hw hk hj2 hk2
    simp only [yuvPixelStep, yuvInv]
    rw [if_pos (show j % 2 = 0 ∧ k % 2 = 0 from ⟨hj2, hk2⟩),
      cCount_succ_even w j k hj2 hk2,
      show j * w + (k + 1) = (j * w + k) + 1 from rfl,
      specMem_succ rgb init w (w * h) (w * h / 4) (j * w + k)
        (cCount w j k) hpN hcQ]
    simp only [pixY, pixU, pixV, hch]
    congr 1 <;> ring
  · have hc0 : cCount w j (k + 1) = cCount w j k := cCount_succ_odd w j k hjk
    simp only [yuvPixelStep, yuvInv]
    rw [if_neg hjk, hc0,
      show j * w + (k + 1) = (j * w + k) + 1 from rfl,
      specMem_succ_y rgb init w (w * h) (w * h / 4) (j * w + k)
        (cCount w j k) hpN]
    simp only [pixY]
    congr 1 <;> ring

/-- The inner loop of rgb2yuv420p carries the invariant across a whole
row. -/
theorem yuvRow_inv (rgb init : Nat → Nat) (w h j : Nat)
    (hw : w % 2 = 0) (hh : h % 2 = 0) (hj : j < h) :
    yuvRow rgb w j (yuvInv rgb init w h j 0) = yuvInv rgb init w h j w := by
  suffices H : ∀ n, n ≤ w →
      (List.range n).foldl (fun st k => yuvPixelStep rgb j k st)
        (yuvInv rgb init w h j 0) = yuvInv rgb init w h j n from
    H w le_rfl
  intro n hn
  induction n with
  | zero => rfl
  | succ m ih =>
      rw [List.range_succ, List.foldl_append, ih (by omega)]
      simp only [List.foldl_cons, List.foldl_nil]
      exact yuvPixelStep_inv rgb init w h j m hw hh hj (by omega)

/-- The invariant at the end of row `j` is the invariant at the start of
row `j + 1`. -/
theorem yuvInv_row_end (rgb init : Nat → Nat) (w h j : Nat)
    (hw : w % 2 = 0) :
    yuvInv rgb init w h j w = yuvInv rgb init w h (j + 1) 0 := by
  simp only [yuvInv]
  rw [cCount_row_end w j hw, show j * w + w = (j + 1) * w + 0 by ring]

/-- The outer loop of rgb2yuv420p carries the invariant across all rows. -/
theorem yuvRows_inv (rgb init : Nat → Nat) (w h : Nat)
    (hw : w % 2 = 0) (hh : h % 2 = 0) :
    ∀ n, n ≤ h →
      (List.range n).foldl (fun st j => yuvRow rgb w j st)
        (yuvInv rgb init w h 0 0) = yuvInv rgb init w h n 0 := by
  intro n hn
  induction n with
  | zero => rfl
  | succ m ih =>
      rw [List.range_succ, List.foldl_append, ih (by omega)]
      simp only [List.foldl_cons, List.foldl_nil]
      rw [yuvRow_inv rgb init w h m hw hh (by omega),
        yuvInv_row_end rgb init w h m hw]

/-- Full characterisation of rgb2yuv420p on an even-by-even frame: the
output memory holds the luma plane at offset 0, the U plane at offset
`w * h` and the V plane at offset `w * h + w * h / 4`, each fully written,
and every other address keeps its initial content. -/
theorem rgb2yuv420p_eq_specMem (rgb init : Nat → Nat) (w h : Nat)
    (hw : w % 2 = 0) (hh : h % 2 = 0) :
    rgb2yuv420p rgb init w h =
      specMem rgb init w (w * h) (w * h / 4) (w * h) (w * h / 4) := by
  unfold rgb2yuv420p
  have h0 : ({ mem := init, i := 0, ui := w * h, vi := w * h + w * h / 4
               s := 0 } : YuvState) = yuvInv rgb init w h 0 0 := by
    simp only [yuvInv]
    rw [cCount_zero, show 0 * w + 0 = 0 by ring, specMem_zero]
    rfl
  rw [h0, yuvRows_inv rgb init w h hw hh h le_rfl]
  simp only [yuvInv]
  rw [cCount_top w h hw hh, show h * w + 0 = w * h by ring]

/-- The luma byte actually stored is, for genuine byte inputs, exactly the
claimed `((66 R + 129 G + 25 B + 128) >> 8) + 16`, with no wrap-around. -/
theorem yStore_int (r g b : Nat) (hr : r < 256) (hg : g < 256)
    (hb : b < 256) :
    (yStore r g b : Int) =
      asr8 (66 * r + 129 * g + 25 * b + 128) + 16 := by
  unfold yStore toByte asr8
  rw [Int.fdiv_eq_ediv _ (by norm_num)]
  omega

/-- The chroma-U byte actually stored is, for genuine byte inputs, exactly
the claimed `((-38 R - 74 G + 112 B + 128) >> 8) + 128`. -/
theorem uStore_int (r g b : Nat) (hr : r < 256) (hg : g < 256)
    (hb : b < 256) :
    (uStore r g b : Int) =
      asr8 (-38 * r - 74 * g + 112 * b + 128) + 128 := by
  unfold uStore toByte asr8
  rw [Int.fdiv_eq_ediv _ (by norm_num)]
  omega

/-- The chroma-V byte actually stored is, for genuine byte inputs, exactly
the claimed `((112 R - 94 G - 18 B + 128) >> 8) + 128`. -/
theorem vStore_int (r g b : Nat) (hr : r < 256) (hg : g < 256)
    (hb : b < 256) :
    (vStore r g b : Int) =
      asr8 (112 * r - 94 * g - 18 * b + 128) + 128 := by
  unfold vStore toByte asr8
  rw [Int.fdiv_eq_ediv _ (by norm_num)]
  omega

/-- Every pixel of a `w`-by-`h` frame has a row-major index below `w * h`. -/
theorem pixel_lt (w h j k : Nat) (hj : j < h) (hk : k < w) :
    j * w + k < w * h :=
  calc j * w + k < j * w + w := Nat.add_lt_add_left hk _
    _ = (j + 1) * w := by ring
    _ ≤ h * w := Nat.mul_le_mul_right w hj
    _ = w * h := Nat.mul_comm h w

/-- For even dimensions the 4:2:0 buffer size `w * h * 3 / 2` is exactly
the luma plane plus the two quarter-size chroma planes. -/
theorem yuv_plane_layout (w h : Nat) (hw : w % 2 = 0) (hh : h % 2 = 0) :
    w * h * 3 / 2 = w * h + w * h / 4 + w * h / 4 := by
  obtain ⟨a, rfl⟩ : ∃ a, w = 2 * a := ⟨w / 2, by omega⟩
  obtain ⟨b, rfl⟩ : ∃ b, h = 2 * b := ⟨h / 2, by omega⟩
  rw [show 2 * a * (2 * b) = 4 * (a * b) by ring,
    Nat.mul_div_cancel_left _ (by norm_num : 0 < 4),
    show 4 * (a * b) * 3 = 2 * (6 * (a * b)) by ring,
    Nat.mul_div_cancel_left _ (by norm_num : 0 < 2)]
  ring

/-- C6: readout-mode packing of a handle-less, nonzero-length buffer into a
`w`-by-`h` (even-by-even) frame allocates a runtime buffer of exactly
`w * h * 3 / 2` bytes and fills it with the planar YUV420 conversion of the
RGB(A) input: the stored bytes are, in terms of the claimed shift formulas,
`((66 R + 129 G + 25 B + 128) >> 8) + 16` for the luma byte of every pixel,
and — only for pixels whose row and column index are both even — the bytes
`((-38 R - 74 G + 112 B + 128) >> 8) + 128` appended to the U plane at
offset `w * h` and `((112 R - 94 G - 18 B + 128) >> 8) + 128` appended to
the V plane at offset `w * h + w * h / 4`; no other byte of the allocation
is touched. -/
theorem readout_pack_converts_rgb_to_yuv420p
    (s : EncoderState) (input : VideoBuffer) (ts : Int) (newId : Nat)
    (init : Nat → Nat) (w h : Nat)
    (hwc : s.config.width = (w : Int)) (hhc : s.config.height = (h : Int))
    (hw : w % 2 = 0) (hh : h % 2 = 0)
    (hro : s.readout = true) (hnh : input.nativeHandle = none)
    (hlen : 0 < input.length) :
    PackBuffer s input ts (some newId) init =
      (some { id := newId
              size := yuvBufferSize s.config.width s.config.height
              payload := MediaPayload.raw (rgb2yuv420p input.data init w h)
              timestampMeta := ts
              hasReturnCallback := true },
        { s with pendingBuffers := s.pendingBuffers ++
            [{ buffer := input
               media_buffer :=
                 { id := newId
                   size := yuvBufferSize s.config.width s.config.height
                   payload :=
                     MediaPayload.raw (rgb2yuv420p input.data init w h)
                   timestampMeta := ts
                   hasReturnCallback := true } }] }) ∧
    yuvBufferSize s.config.width s.config.height
      = ((w * h * 3 / 2 : Nat) : Int) ∧
    (∀ r g b : Nat, r < 256 → g < 256 → b < 256 →
      (yStore r g b : Int) = asr8 (66 * r + 129 * g + 25 * b + 128) + 16 ∧
      (uStore r g b : Int) = asr8 (-38 * r - 74 * g + 112 * b + 128) + 128 ∧
      (vStore r g b : Int) = asr8 (112 * r - 94 * g - 18 * b + 128) + 128) ∧
    (∀ j k, j < h → k < w →
      rgb2yuv420p input.data init w h (j * w + k) =
        yStore (input.data (4 * (j * w + k)))
          (input.data (4 * (j * w + k) + 1))
          (input.data (4 * (j * w + k) + 2))) ∧
    (∀ j k, j < h → k < w → j % 2 = 0 → k % 2 = 0 →
      rgb2yuv420p input.data init w h (w * h + (w / 2 * (j / 2) + k / 2)) =
        uStore (input.data (4 * (j * w + k)))
          (input.data (4 * (j * w + k) + 1))
          (input.data (4 * (j * w + k) + 2)) ∧
      rgb2yuv420p input.data init w h
          (w * h + w * h / 4 + (w / 2 * (j / 2) + k / 2)) =
        vStore (input.data (4 * (j * w + k)))
          (input.data (4 * (j * w + k) + 1))
          (input.data (4 * (j * w + k) + 2))) ∧
    (∀ a, w * h * 3 / 2 ≤ a → rgb2yuv420p input.data init w h a = init a) := by
  refine ⟨?_, ?_, ?_, ?_, ?_, ?_⟩
  · simp [PackBuffer, hro, hnh, hlen, hwc, hhc]
  · rw [hwc, hhc]
    unfold yuvBufferSize
    rw [show (w : Int) * (h : Int) * 3 = ((w * h * 3 : Nat) : Int) by
      push_cast; ring]
    generalize (w * h * 3 : Nat) = m
    rw [Int.tdiv_eq_ediv (by positivity) (by norm_num)]
    omega
  · intro r g b hr hg hb
    exact ⟨yStore_int r g b hr hg hb, uStore_int r g b hr hg hb,
      vStore_int r g b hr hg hb⟩
  · intro j k hj hk
    rw [rgb2yuv420p_eq_specMem input.data init w h hw hh]
    simp only [specMem]
    rw [if_pos (pixel_lt w h j k hj hk)]
    rfl
  · intro j k hj hk hj2 hk2
    rw [rgb2yuv420p_eq_specMem input.data init w h hw hh]
    have htc : cCount w j k = w / 2 * (j / 2) + k / 2 :=
      cCount_even w j k hj2 hk2
    have htQ : w / 2 * (j / 2) + k / 2 < w * h / 4 :=
      htc ▸ cCount_lt w h j k hw hh hj hk hj2 hk2
    have hcp : chromaPix w (w / 2 * (j / 2) + k / 2) = j * w + k :=
      htc ▸ chromaPix_cCount w j k hw hk hj2 hk2
    constructor
    · simp only [specMem]
      rw [if_neg (by omega), if_pos ⟨by omega, by omega⟩,
        show w * h + (w / 2 * (j / 2) + k / 2) - w * h
          = w / 2 * (j / 2) + k / 2 by omega]
      unfold pixU
      rw [hcp]
    · simp only [specMem]
      rw [if_neg (by omega),
        if_neg (by rintro ⟨h1, h2⟩; omega),
        if_pos ⟨by omega, by omega⟩,
        show w * h + w * h / 4 + (w / 2 * (j / 2) + k / 2)
            - (w * h + w * h / 4) = w / 2 * (j / 2) + k / 2 by omega]
      unfold pixV
      rw [hcp]
  · intro a ha
    have hlay : w * h * 3 / 2 = w * h + w * h / 4 + w * h / 4 :=
      yuv_plane_layout w h hw hh
    rw [rgb2yuv420p_eq_specMem input.data init w h hw hh]
    simp only [specMem]
    rw [if_neg (by omega), if_neg (by rintro ⟨h1, h2⟩; omega),
      if_neg (by rintro ⟨h1, h2⟩; omega)]

/-- Witness for C6 at a concrete 2x2 readout pack with a constant-colour
input. -/
theorem readout_pack_converts_rgb_to_yuv420p_witness :
    rgb2yuv420p sampleBuffer.data (fun _ => 0) 2 2 (0 * 2 + 0) =
      yStore (sampleBuffer.data (4 * (0 * 2 + 0)))
        (sampleBuffer.data (4 * (0 * 2 + 0) + 1))
        (sampleBuffer.data (4 * (0 * 2 + 0) + 2)) :=
  (readout_pack_converts_rgb_to_yuv420p tinyState sampleBuffer 42 3
      (fun _ => 0) 2 2 rfl rfl rfl rfl rfl rfl
      (by simp [sampleBuffer])).2.2.2.1 0 0 (by norm_num) (by norm_num)

end Aethercast
